import Mathlib

/-!
Verification of the Hardhat network-manager request pipeline spec against the
repository sources. Pure fragments of the TypeScript code are embedded as Lean
definitions; where a claim concerns implementation files that are absent from
the source tree (only their tests or callers are present), the definitions are
modelled from the specification text, and each such definition is marked
`Modelled from the spec:` in its doc comment.
-/

set_option autoImplicit false

/- ------------------------------------------------------------------ -/
/- Section 1: resolved configuration variables (BaseResolvedConfigurationVariable). -/
/- ------------------------------------------------------------------ -/

/-- Errors raised by the raw-value fetch of a configuration variable
(`HardhatError.ERRORS.GENERAL.ENV_VAR_NOT_FOUND` in the source). -/
inductive ConfigVarError where
  | envVarNotFound
deriving DecidableEq

/-- Mutable state of a `BaseResolvedConfigurationVariable`: the private
`#cachedValue` field, `undefined` (here `none`) until the first successful
fetch. -/
structure ResolvedConfigurationVariableState where
  cachedValue : Option String
deriving DecidableEq

/-- Embedding of `BaseResolvedConfigurationVariable.get` (src/unnamed/part_000,
lines 24-30). The argument `getRawValue` is the outcome the abstract
`getRawValue()` method would produce at this moment (it may differ between
calls when the environment changes). The result carries the returned value or
error, the updated cache state, and the number of raw fetches this call
performed (0 or 1). -/
def BaseResolvedConfigurationVariable.get (getRawValue : Except ConfigVarError String)
    (s : ResolvedConfigurationVariableState) :
    Except ConfigVarError String × ResolvedConfigurationVariableState × Nat :=
  match s.cachedValue with
  | some v => (Except.ok v, s, 0)
  | none =>
    match getRawValue with
    | Except.ok v => (Except.ok v, ⟨some v⟩, 1)
    | Except.error e => (Except.error e, s, 1)

/- ------------------------------------------------------------------ -/
/- Section 2: the node task action (src/unnamed/part_001). -/
/- ------------------------------------------------------------------ -/

/-- Errors the node task can throw before reaching `hre.network.connect`
(src/unnamed/part_001). -/
inductive NodeTaskError where
  | networkNotFound (networkName : String)
  | invalidNetworkType (networkType : String) (networkName : String)
  | invalidValueForType (value : String) (typeName : String) (argName : String)
  | missingValueForArgument (argument : String)
deriving DecidableEq

/-- Fork configuration attached to the network override
(`networkConfigOverride.forkConfig` in the source). -/
structure EdrForkConfig where
  jsonRpcUrl : String
  blockNumber : Option Int
deriving DecidableEq

/-- The partial `EdrNetworkConfig` override built by `nodeAction`. -/
structure EdrNetworkConfigOverride where
  chainType : Option String
  chainId : Option Int
  forkConfig : Option EdrForkConfig
deriving DecidableEq

/-- CLI arguments of the node task (`NodeActionArguments` in the source).
Sentinels follow the source: `""` means the string argument is absent and
`-1` means the numeric argument is absent. -/
structure NodeActionArguments where
  hostname : String
  port : Nat
  chainType : String
  chainId : Int
  fork : String
  forkBlockNumber : Int
deriving DecidableEq

/-- The slice of the Hardhat runtime configuration that `nodeAction` consults
before connecting: the `--network` global option, the default network name,
and the map from network name to network type. -/
structure HreConfig where
  globalOptionsNetwork : String
  defaultNetwork : String
  networks : List (String × String)
deriving DecidableEq

/-- Embedding of the argument-validation part of `nodeAction`
(src/unnamed/part_001, lines 98-141): chain-type enumeration check, chain id
override, and the fork / fork-block-number coupling. `Except.ok o` means the
code falls through to `hre.network.connect(network, undefined, o)`;
`Except.error e` means the corresponding `HardhatError` is thrown before the
network is ever connected. -/
def nodeActionValidateArgs (args : NodeActionArguments) :
    Except NodeTaskError EdrNetworkConfigOverride :=
  if args.chainType ≠ "" ∧
      ¬(args.chainType = "generic" ∨ args.chainType = "l1" ∨ args.chainType = "optimism") then
    Except.error (NodeTaskError.invalidValueForType args.chainType "ChainType" "chainType")
  else
    let o1 : EdrNetworkConfigOverride :=
      { chainType := if args.chainType ≠ "" then some args.chainType else none
        chainId := if args.chainId ≠ -1 then some args.chainId else none
        forkConfig := none }
    if args.fork ≠ "" then
      let fc : EdrForkConfig :=
        { jsonRpcUrl := args.fork
          blockNumber := if args.forkBlockNumber ≠ -1 then some args.forkBlockNumber else none }
      Except.ok { o1 with forkConfig := some fc }
    else if args.forkBlockNumber ≠ -1 then
      Except.error (NodeTaskError.missingValueForArgument "fork")
    else
      Except.ok o1

/-- Embedding of the phase of `nodeAction` that runs before
`hre.network.connect` (src/unnamed/part_001, lines 77-149): network-name
resolution, network-existence and network-type checks, then argument
validation. -/
def nodeActionBuildOverride (cfg : HreConfig) (args : NodeActionArguments) :
    Except NodeTaskError EdrNetworkConfigOverride :=
  let network :=
    if cfg.globalOptionsNetwork ≠ "" then cfg.globalOptionsNetwork else cfg.defaultNetwork
  match cfg.networks.lookup network with
  | none => Except.error (NodeTaskError.networkNotFound network)
  | some networkType =>
    if networkType ≠ "edr" then
      Except.error (NodeTaskError.invalidNetworkType networkType network)
    else
      nodeActionValidateArgs args

/-- Embedding of the hostname defaulting logic of `nodeAction`
(src/unnamed/part_001, lines 157-167). The existence of the file
`/.dockerenv` (an effect) is abstracted into the boolean
`dockerenvExists`. -/
def resolveHostname (hostnameArg : String) (dockerenvExists : Bool) : String :=
  if hostnameArg = "" then
    if dockerenvExists then "0.0.0.0" else "127.0.0.1"
  else hostnameArg

/- ------------------------------------------------------------------ -/
/- Section 3: the fixed sender handler. -/
/- ------------------------------------------------------------------ -/

/-- Transaction-shaped `params[0]` of a JSON-RPC call (the test's
`JsonRpcTransactionData`). The source field `from` is renamed `fromAddr`
because `from` is a reserved word in Lean. -/
structure JsonRpcTransactionData where
  fromAddr : Option String
  toAddr : Option String
  gas : Option String
  gasPrice : Option String
  nonce : Option String
  value : Option String
deriving DecidableEq

/-- A JSON-RPC request whose params carry transaction data, as handled by the
sender-resolution handlers. -/
structure JsonRpcTxRequest where
  id : Nat
  method : String
  params : List JsonRpcTransactionData
deriving DecidableEq

/-- Modelled from the spec: the set of transaction-shaped methods the sender
handler applies to (spec section 4.2, "transaction-shaped methods
(`eth_sendTransaction` and similar)"); the handler is a no-op pass-through for
other methods. -/
def transactionMethods : List String :=
  ["eth_sendTransaction", "eth_call", "eth_estimateGas", "eth_signTransaction"]

/-- Modelled from the spec: `FixedSenderHandler.handle` — the implementation
file is not in the source tree, only its unit test
(test/.../accounts/fixed-sender-handler.ts). Per spec section 4.2 item 1 and
the test: if the request is transaction-shaped and `from` is absent, fill it
with the handler's fixed sender address; never overwrite an explicitly
supplied `from`. -/
def FixedSenderHandler.handle (sender : String) (req : JsonRpcTxRequest) : JsonRpcTxRequest :=
  if req.method ∈ transactionMethods then
    match req.params with
    | [] => req
    | tx :: rest =>
      if tx.fromAddr = none then
        { req with params := { tx with fromAddr := some sender } :: rest }
      else req
  else req

/- ------------------------------------------------------------------ -/
/- Section 4: gas price / fee filling handler. -/
/- ------------------------------------------------------------------ -/

/-- Fee-related fields of a transaction request. -/
structure FeeFields where
  gasPrice : Option Nat
  maxFeePerGas : Option Nat
  maxPriorityFeePerGas : Option Nat
deriving DecidableEq

/-- Error of the fee-filling handler. -/
inductive FeeError where
  | conflictingFeeFields
deriving DecidableEq

/-- Current network fee data, as returned by the provider when queried. -/
structure NetworkFeeData where
  gasPrice : Nat
  maxFeePerGas : Nat
  maxPriorityFeePerGas : Nat
deriving DecidableEq

/-- Modelled from the spec: the Gas Price / Fee Filling handler (spec section
4.2 item 3) — its implementation file is not in the source tree. Mixing the
legacy `gasPrice` with an EIP-1559 field is a `ConflictingFeeFields` error;
otherwise missing price fields are populated from the network fee data,
matching whichever scheme the caller partially specified. -/
def fillFees (net : NetworkFeeData) (tx : FeeFields) : Except FeeError FeeFields :=
  if tx.gasPrice.isSome ∧ (tx.maxFeePerGas.isSome ∨ tx.maxPriorityFeePerGas.isSome) then
    Except.error FeeError.conflictingFeeFields
  else if tx.gasPrice.isSome then
    Except.ok tx
  else if tx.maxFeePerGas.isSome ∨ tx.maxPriorityFeePerGas.isSome then
    Except.ok { tx with
      maxFeePerGas := some (tx.maxFeePerGas.getD net.maxFeePerGas)
      maxPriorityFeePerGas := some (tx.maxPriorityFeePerGas.getD net.maxPriorityFeePerGas) }
  else
    Except.ok { tx with
      maxFeePerGas := some net.maxFeePerGas
      maxPriorityFeePerGas := some net.maxPriorityFeePerGas }

/-- Modelled from the spec: the fee handler followed by the terminal Provider
Adapter. The boolean records whether the request was forwarded to the
adapter; a handler error short-circuits and the request never reaches it. -/
def gasPriceHandlerPipeline (net : NetworkFeeData) (tx : FeeFields) :
    Except FeeError FeeFields × Bool :=
  match fillFees net tx with
  | Except.ok tx2 => (Except.ok tx2, true)
  | Except.error e => (Except.error e, false)

/- ------------------------------------------------------------------ -/
/- Section 5: nonce assignment under the per-address critical section. -/
/- ------------------------------------------------------------------ -/

/-- State of the per-address mutex guarding nonce assignment. -/
inductive LockState where
  | free
  | held
deriving DecidableEq

/-- Per-sender state of the Nonce Assignment handler: the mutex and the
sender's current transaction count (pending transactions included). -/
structure NonceManagerState where
  lock : LockState
  txCount : Nat
deriving DecidableEq

/-- Modelled from the spec: because the Nonce Assignment handler holds an
exclusive per-address critical section around "read current count, assign,
commit" (spec section 5), the effect of N concurrent calls from one sender is
that of the serialized sequence in which they enter the critical section.
`runSerialized start order` assigns each entrant, in entry order, the counter
value at its entry and increments the counter. -/
def runSerialized {α : Type} (start : Nat) : List α → List (α × Nat)
  | [] => []
  | c :: cs => (c, start) :: runSerialized (start + 1) cs

/-- Modelled from the spec: one pass of the Nonce Assignment handler for one
call — acquire the per-address mutex, read the count, assign, commit, release.
`handlerFails` selects the failure exit path; the mutex is released on both
paths (spec section 5: "the critical section must release on every exit path,
including handler failure"). -/
def sendWithNonceLock (handlerFails : Bool) (s : NonceManagerState) :
    Except String Nat × NonceManagerState :=
  let acquired : NonceManagerState := { s with lock := LockState.held }
  if handlerFails then
    (Except.error "handler failure", { acquired with lock := LockState.free })
  else
    (Except.ok acquired.txCount,
      { lock := LockState.free, txCount := acquired.txCount + 1 })

/- ------------------------------------------------------------------ -/
/- Theorems for claims C9, C10, C1, C5, C4. -/
/- ------------------------------------------------------------------ -/

/-- Claim C9: for every resolved configuration variable, the raw-value fetch
is performed at most once per variable instance — the first successful `get()`
caches the string, and every subsequent `get()` returns that same cached
string with no further fetch, even if the underlying environment changes
between calls. -/
theorem config_var_get_fetches_once (raw1 : Except ConfigVarError String)
    (s : ResolvedConfigurationVariableState) (v : String)
    (hcache : s.cachedValue = none) (hsucc : raw1 = Except.ok v) :
    BaseResolvedConfigurationVariable.get raw1 s = (Except.ok v, ⟨some v⟩, 1) ∧
    ∀ raw2 : Except ConfigVarError String,
      BaseResolvedConfigurationVariable.get raw2 ⟨some v⟩ = (Except.ok v, ⟨some v⟩, 0) := by
  constructor
  · simp [BaseResolvedConfigurationVariable.get, hcache, hsucc]
  · intro raw2
    simp [BaseResolvedConfigurationVariable.get]

/-- Witness for C9 at a concrete variable state and environment. -/
theorem config_var_get_fetches_once_witness :
    BaseResolvedConfigurationVariable.get (Except.ok "0xabc") ⟨none⟩ =
      (Except.ok "0xabc", ⟨some "0xabc"⟩, 1) ∧
    ∀ raw2 : Except ConfigVarError String,
      BaseResolvedConfigurationVariable.get raw2 ⟨some "0xabc"⟩ =
        (Except.ok "0xabc", ⟨some "0xabc"⟩, 0) :=
  config_var_get_fetches_once (Except.ok "0xabc") ⟨none⟩ "0xabc" rfl rfl

/-- Claim C10: when the node task's hostname argument is the empty string, the
server binds to "0.0.0.0" if `/.dockerenv` exists and to "127.0.0.1"
otherwise; a non-empty hostname argument is used exactly as supplied. -/
theorem node_hostname_defaulting (h : String) (docker : Bool) :
    (h = "" → resolveHostname h docker = if docker then "0.0.0.0" else "127.0.0.1") ∧
    (h ≠ "" → resolveHostname h docker = h) := by
  constructor
  · intro he
    simp [resolveHostname, he]
  · intro hne
    simp [resolveHostname, hne]

/-- Witness for C10 at concrete hostnames. -/
theorem node_hostname_defaulting_witness :
    resolveHostname "" true = (if true then "0.0.0.0" else "127.0.0.1") ∧
    resolveHostname "" false = (if false then "0.0.0.0" else "127.0.0.1") ∧
    resolveHostname "example.test" true = "example.test" :=
  ⟨(node_hostname_defaulting "" true).1 rfl,
   (node_hostname_defaulting "" false).1 rfl,
   (node_hostname_defaulting "example.test" true).2 (by decide)⟩

/-- Claim C1: for every transaction-shaped request, the Sender Resolution
handler leaves an explicitly supplied `from` unchanged; when `from` is absent
it fills it with the account resolver's fixed sender address; applying the
handler twice yields the same result as applying it once. -/
theorem fixed_sender_handler_spec (sender : String) (req : JsonRpcTxRequest) :
    (∀ tx rest a, req.params = tx :: rest → tx.fromAddr = some a →
        FixedSenderHandler.handle sender req = req) ∧
    (∀ tx rest, req.params = tx :: rest → tx.fromAddr = none →
        req.method ∈ transactionMethods →
        FixedSenderHandler.handle sender req =
          { req with params := { tx with fromAddr := some sender } :: rest }) ∧
    FixedSenderHandler.handle sender (FixedSenderHandler.handle sender req) =
      FixedSenderHandler.handle sender req := by
  refine ⟨?_, ?_, ?_⟩
  · intro tx rest a hp hfrom
    simp [FixedSenderHandler.handle, hp, hfrom]
  · intro tx rest hp hfrom hmethod
    simp [FixedSenderHandler.handle, hp, hfrom, hmethod]
  · by_cases hmethod : req.method ∈ transactionMethods
    · cases hp : req.params with
      | nil =>
        simp [FixedSenderHandler.handle, hp, hmethod]
      | cons tx rest =>
        by_cases hfrom : tx.fromAddr = none
        · simp [FixedSenderHandler.handle, hp, hmethod, hfrom]
        · simp [FixedSenderHandler.handle, hp, hmethod, hfrom]
    · simp [FixedSenderHandler.handle, hmethod]

/-- Witness for C1: the unit-test scenario — fixed sender
0x2a97a65d5673a2c61e95ce33cecadf24f654f96d, an `eth_sendTransaction` call with
no `from` gets it injected, and a call with an explicit `from` keeps it. -/
theorem fixed_sender_handler_spec_witness :
    FixedSenderHandler.handle "0x2a97a65d5673a2c61e95ce33cecadf24f654f96d"
        { id := 1, method := "eth_sendTransaction",
          params := [{ fromAddr := none,
                       toAddr := some "0xb5bc06d4548a3ac17d72b372ae1e416bf65b8ead",
                       gas := some "0x5208", gasPrice := some "0xa5c00",
                       nonce := some "0x0", value := some "0x1" }] } =
      { id := 1, method := "eth_sendTransaction",
        params := [{ fromAddr := some "0x2a97a65d5673a2c61e95ce33cecadf24f654f96d",
                     toAddr := some "0xb5bc06d4548a3ac17d72b372ae1e416bf65b8ead",
                     gas := some "0x5208", gasPrice := some "0xa5c00",
                     nonce := some "0x0", value := some "0x1" }] } ∧
    FixedSenderHandler.handle "0x2a97a65d5673a2c61e95ce33cecadf24f654f96d"
        { id := 1, method := "eth_sendTransaction",
          params := [{ fromAddr := some "0x000006d4548a3ac17d72b372ae1e416bf65b8ead",
                       toAddr := some "0xb5bc06d4548a3ac17d72b372ae1e416bf65b8ead",
                       gas := some "0x5208", gasPrice := some "0xa5c00",
                       nonce := some "0x0", value := some "0x1" }] } =
      { id := 1, method := "eth_sendTransaction",
        params := [{ fromAddr := some "0x000006d4548a3ac17d72b372ae1e416bf65b8ead",
                     toAddr := some "0xb5bc06d4548a3ac17d72b372ae1e416bf65b8ead",
                     gas := some "0x5208", gasPrice := some "0xa5c00",
                     nonce := some "0x0", value := some "0x1" }] } := by
  constructor
  · exact (fixed_sender_handler_spec "0x2a97a65d5673a2c61e95ce33cecadf24f654f96d"
      { id := 1, method := "eth_sendTransaction",
        params := [{ fromAddr := none,
                     toAddr := some "0xb5bc06d4548a3ac17d72b372ae1e416bf65b8ead",
                     gas := some "0x5208", gasPrice := some "0xa5c00",
                     nonce := some "0x0", value := some "0x1" }] }).2.1
      _ [] rfl rfl (by decide)
  · exact (fixed_sender_handler_spec "0x2a97a65d5673a2c61e95ce33cecadf24f654f96d"
      { id := 1, method := "eth_sendTransaction",
        params := [{ fromAddr := some "0x000006d4548a3ac17d72b372ae1e416bf65b8ead",
                     toAddr := some "0xb5bc06d4548a3ac17d72b372ae1e416bf65b8ead",
                     gas := some "0x5208", gasPrice := some "0xa5c00",
                     nonce := some "0x0", value := some "0x1" }] }).1
      _ [] _ rfl rfl

/-- Claim C5: a call supplying both a legacy `gasPrice` and an EIP-1559 fee
field is rejected with the `ConflictingFeeFields` error and is never forwarded
to the Provider Adapter. -/
theorem conflicting_fee_fields_rejected (net : NetworkFeeData) (tx : FeeFields)
    (h1 : tx.gasPrice.isSome = true)
    (h2 : tx.maxFeePerGas.isSome = true ∨ tx.maxPriorityFeePerGas.isSome = true) :
    gasPriceHandlerPipeline net tx = (Except.error FeeError.conflictingFeeFields, false) := by
  have hconf : fillFees net tx = Except.error FeeError.conflictingFeeFields := by
    rcases h2 with h2 | h2 <;> simp [fillFees, h1, h2]
  simp [gasPriceHandlerPipeline, hconf]

/-- Witness for C5: a transaction with both `gasPrice` and `maxFeePerGas`. -/
theorem conflicting_fee_fields_rejected_witness :
    gasPriceHandlerPipeline ⟨7, 9, 2⟩ ⟨some 5, some 11, none⟩ =
      (Except.error FeeError.conflictingFeeFields, false) :=
  conflicting_fee_fields_rejected ⟨7, 9, 2⟩ ⟨some 5, some 11, none⟩ rfl (Or.inl rfl)

/-- Claim C4: the nonces assigned to N serialized concurrent calls from one
sender form the contiguous run of N distinct integers starting at the
pre-call transaction count; the nonce sequence does not depend on the entry
order of the calls; and the per-address critical section is released on every
exit path of the handler, including failure. -/
theorem nonce_assignment_spec :
    (∀ (start : Nat) (order : List Nat),
        (runSerialized start order).map Prod.snd = List.range' start order.length ∧
        ((runSerialized start order).map Prod.snd).Nodup) ∧
    (∀ (start : Nat) (order1 order2 : List Nat), order1.length = order2.length →
        (runSerialized start order1).map Prod.snd =
          (runSerialized start order2).map Prod.snd) ∧
    (∀ (handlerFails : Bool) (s : NonceManagerState),
        (sendWithNonceLock handlerFails s).2.lock = LockState.free) := by
  have hmap : ∀ (order : List Nat) (start : Nat),
      (runSerialized start order).map Prod.snd = List.range' start order.length := by
    intro order
    induction order with
    | nil => intro start; simp [runSerialized]
    | cons c cs ih =>
      intro start
      simp [runSerialized, List.range'_succ, ih]
  refine ⟨?_, ?_, ?_⟩
  · intro start order
    refine ⟨hmap order start, ?_⟩
    rw [hmap order start]
    exact List.nodup_range' start order.length
  · intro start order1 order2 hlen
    rw [hmap order1 start, hmap order2 start, hlen]
  · intro handlerFails s
    cases handlerFails <;> simp [sendWithNonceLock]

/-- Witness for C4: three concurrent calls starting at transaction count 5 get
nonces 5, 6, 7 in every entry order, and the lock ends free on both exit
paths. -/
theorem nonce_assignment_spec_witness :
    (runSerialized 5 [10, 20, 30]).map Prod.snd = List.range' 5 3 ∧
    (runSerialized 5 [10, 20, 30]).map Prod.snd = (runSerialized 5 [30, 10, 20]).map Prod.snd ∧
    (sendWithNonceLock true ⟨LockState.free, 5⟩).2.lock = LockState.free ∧
    (sendWithNonceLock false ⟨LockState.free, 5⟩).2.lock = LockState.free :=
  ⟨(nonce_assignment_spec.1 5 [10, 20, 30]).1,
   nonce_assignment_spec.2.1 5 [10, 20, 30] [30, 10, 20] rfl,
   nonce_assignment_spec.2.2 true ⟨LockState.free, 5⟩,
   nonce_assignment_spec.2.2 false ⟨LockState.free, 5⟩⟩

/- ------------------------------------------------------------------ -/
/- Theorems for claims C7 and C8 (node task argument validation). -/
/- ------------------------------------------------------------------ -/

/-- Closed form of `nodeActionValidateArgs`, convenient for case analysis. -/
theorem nodeActionValidateArgs_eq (args : NodeActionArguments) :
    nodeActionValidateArgs args =
      if args.chainType ≠ "" ∧
          ¬(args.chainType = "generic" ∨ args.chainType = "l1" ∨ args.chainType = "optimism") then
        Except.error (NodeTaskError.invalidValueForType args.chainType "ChainType" "chainType")
      else if args.fork ≠ "" then
        Except.ok
          ⟨if args.chainType ≠ "" then some args.chainType else none,
           if args.chainId ≠ -1 then some args.chainId else none,
           some ⟨args.fork, if args.forkBlockNumber ≠ -1 then some args.forkBlockNumber else none⟩⟩
      else if args.forkBlockNumber ≠ -1 then
        Except.error (NodeTaskError.missingValueForArgument "fork")
      else
        Except.ok
          ⟨if args.chainType ≠ "" then some args.chainType else none,
           if args.chainId ≠ -1 then some args.chainId else none, none⟩ := rfl

/-- Under a configuration whose selected network exists with type `edr`, the
pre-connect phase of the node task reduces to argument validation. -/
theorem nodeActionBuildOverride_eq_validate (cfg : HreConfig) (args : NodeActionArguments)
    (hnet : cfg.networks.lookup
        (if cfg.globalOptionsNetwork ≠ "" then cfg.globalOptionsNetwork else cfg.defaultNetwork) =
      some "edr") :
    nodeActionBuildOverride cfg args = nodeActionValidateArgs args := by
  simp only [nodeActionBuildOverride]
  rw [hnet]
  simp

/-- Claim C7: for every non-empty chain-type CLI argument, the node task
accepts it if and only if it belongs to the closed enumeration
{"generic", "l1", "optimism"}; any other non-empty value fails with the
invalid-value-for-type argument error before the network is connected
(`Except.ok` marks the runs that reach `hre.network.connect`). -/
theorem node_chain_type_enum (cfg : HreConfig) (args : NodeActionArguments)
    (hnet : cfg.networks.lookup
        (if cfg.globalOptionsNetwork ≠ "" then cfg.globalOptionsNetwork else cfg.defaultNetwork) =
      some "edr")
    (hct : args.chainType ≠ "") :
    (¬(args.chainType = "generic" ∨ args.chainType = "l1" ∨ args.chainType = "optimism") ↔
        nodeActionBuildOverride cfg args =
          Except.error
            (NodeTaskError.invalidValueForType args.chainType "ChainType" "chainType")) ∧
    ((args.chainType = "generic" ∨ args.chainType = "l1" ∨ args.chainType = "optimism") →
        ∀ o, nodeActionBuildOverride cfg args = Except.ok o →
          o.chainType = some args.chainType) := by
  rw [nodeActionBuildOverride_eq_validate cfg args hnet, nodeActionValidateArgs_eq]
  constructor
  · constructor
    · intro hmem
      rw [if_pos ⟨hct, hmem⟩]
    · intro h hmem
      rw [if_neg (fun hc => hc.2 hmem)] at h
      by_cases hf : args.fork ≠ ""
      · rw [if_pos hf] at h
        simp at h
      · rw [if_neg hf] at h
        by_cases hb : args.forkBlockNumber ≠ -1
        · rw [if_pos hb] at h
          simp at h
        · rw [if_neg hb] at h
          simp at h
  · intro hmem o ho
    rw [if_neg (fun hc => hc.2 hmem)] at ho
    by_cases hf : args.fork ≠ ""
    · rw [if_pos hf] at ho
      injection ho with h1
      subst h1
      simp [hct]
    · rw [if_neg hf] at ho
      by_cases hb : args.forkBlockNumber ≠ -1
      · rw [if_pos hb] at ho
        simp at ho
      · rw [if_neg hb] at ho
        injection ho with h1
        subst h1
        simp [hct]

/-- Witness for C7: under a default `edr` network, chain type "arbitrum" is
rejected with the invalid-value error, and chain type "optimism" is carried
into the override. -/
theorem node_chain_type_enum_witness :
    nodeActionBuildOverride ⟨"", "localhost", [("localhost", "edr")]⟩
        ⟨"", 8545, "arbitrum", -1, "", -1⟩ =
      Except.error (NodeTaskError.invalidValueForType "arbitrum" "ChainType" "chainType") ∧
    ∀ o, nodeActionBuildOverride ⟨"", "localhost", [("localhost", "edr")]⟩
        ⟨"", 8545, "optimism", -1, "", -1⟩ = Except.ok o → o.chainType = some "optimism" :=
  ⟨(node_chain_type_enum ⟨"", "localhost", [("localhost", "edr")]⟩
      ⟨"", 8545, "arbitrum", -1, "", -1⟩ (by decide) (by decide)).1.mp (by decide),
   (node_chain_type_enum ⟨"", "localhost", [("localhost", "edr")]⟩
      ⟨"", 8545, "optimism", -1, "", -1⟩ (by decide) (by decide)).2 (by decide)⟩

/-- Claim C8: supplying a fork block number (not -1) without a fork source URL
fails with the missing-argument error naming "fork", before the network is
connected; when a fork source is supplied, the fork block number is attached
to the fork configuration. -/
theorem node_fork_block_requires_fork (cfg : HreConfig) (args : NodeActionArguments)
    (hnet : cfg.networks.lookup
        (if cfg.globalOptionsNetwork ≠ "" then cfg.globalOptionsNetwork else cfg.defaultNetwork) =
      some "edr")
    (hct : args.chainType = "" ∨ args.chainType = "generic" ∨ args.chainType = "l1" ∨
      args.chainType = "optimism") :
    (args.fork = "" → args.forkBlockNumber ≠ -1 →
        nodeActionBuildOverride cfg args =
          Except.error (NodeTaskError.missingValueForArgument "fork")) ∧
    (args.fork ≠ "" → ∃ o, nodeActionBuildOverride cfg args = Except.ok o ∧
        o.forkConfig = some
          ⟨args.fork, if args.forkBlockNumber ≠ -1 then some args.forkBlockNumber else none⟩) := by
  have hcond : ¬(args.chainType ≠ "" ∧
      ¬(args.chainType = "generic" ∨ args.chainType = "l1" ∨ args.chainType = "optimism")) := by
    rcases hct with h | h
    · exact fun hc => hc.1 h
    · exact fun hc => hc.2 h
  rw [nodeActionBuildOverride_eq_validate cfg args hnet, nodeActionValidateArgs_eq,
    if_neg hcond]
  constructor
  · intro hf hb
    rw [if_neg (fun hc => hc hf), if_pos hb]
  · intro hf
    rw [if_pos hf]
    exact ⟨_, rfl, rfl⟩

/-- Witness for C8: forkBlockNumber 123 without a fork source errors; a fork
source with forkBlockNumber 456 lands in the fork configuration. -/
theorem node_fork_block_requires_fork_witness :
    nodeActionBuildOverride ⟨"", "localhost", [("localhost", "edr")]⟩
        ⟨"", 8545, "", -1, "", 123⟩ =
      Except.error (NodeTaskError.missingValueForArgument "fork") ∧
    ∃ o, nodeActionBuildOverride ⟨"", "localhost", [("localhost", "edr")]⟩
        ⟨"", 8545, "", -1, "https://mainnet.example", 456⟩ = Except.ok o ∧
      o.forkConfig = some ⟨"https://mainnet.example",
        if (456 : Int) ≠ -1 then some 456 else none⟩ :=
  ⟨(node_fork_block_requires_fork ⟨"", "localhost", [("localhost", "edr")]⟩
      ⟨"", 8545, "", -1, "", 123⟩ (by decide) (Or.inl rfl)).1 rfl (by decide),
   (node_fork_block_requires_fork ⟨"", "localhost", [("localhost", "edr")]⟩
      ⟨"", 8545, "", -1, "https://mainnet.example", 456⟩ (by decide) (Or.inl rfl)).2
     (by decide)⟩

/- ------------------------------------------------------------------ -/
/- Section 6: HD-wallet account resolution (claims C2 and C3). -/
/- ------------------------------------------------------------------ -/

/-- Decide whether a character is a decimal digit. -/
def isDigitChar (c : Char) : Bool :=
  48 ≤ c.toNat && c.toNat ≤ 57

/-- The hardened-derivation marker character (an apostrophe). -/
def hardenedMarkChar : Char := Char.ofNat 39

/-- The path separator character. -/
def slashChar : Char := Char.ofNat 47

/-- Tail of an HD path segment after its first digit: more digits, optionally
ending with the hardened marker. -/
def hdSegmentRest : List Char → Bool
  | [] => true
  | [c] => isDigitChar c || c == hardenedMarkChar
  | c :: cs => isDigitChar c && hdSegmentRest cs

/-- Decide whether a chunk of an HD path is a well-formed segment: one or more
decimal digits, optionally followed by the hardened marker. -/
def hdSegment (cs : List Char) : Bool :=
  match cs with
  | [] => false
  | c :: rest => isDigitChar c && hdSegmentRest rest

/-- Split a character list on the path separator, keeping empty chunks (the
behaviour of splitting a string on "/"). -/
def splitSlash : List Char → List (List Char)
  | [] => [[]]
  | c :: cs =>
    if c == slashChar then [] :: splitSlash cs
    else
      match splitSlash cs with
      | [] => [[c]]
      | seg :: rest => (c :: seg) :: rest

/-- Modelled from the spec: validity of an HD derivation path (spec section
4.1) — the path starts with the chunk "m", contains at least one well-formed
segment, and ends with a trailing separator, so that the variable final
segment can be appended. A path such as "m/" (no segment) is malformed. The
derivation implementation is not in the source tree; only its e2e test
(src/unnamed/part_004) is. -/
def validHdPath (path : String) : Bool :=
  match splitSlash path.data with
  | [] => false
  | m :: rest =>
    m == ['m'] &&
    (match rest.reverse with
     | [] => false
     | last :: segsRev => last.isEmpty && !segsRev.isEmpty && segsRev.all hdSegment)

/-- HD-wallet account configuration (`HttpNetworkHDAccountsConfig` in the
source tree's test, src/unnamed/part_004). -/
structure HDWalletConfig where
  mnemonic : String
  path : String
  initialIndex : Nat
  count : Nat
  passphrase : String
deriving DecidableEq

/-- Modelled from the spec: a derived address. The BIP32/39/44 cryptography is
not in the source tree; per spec section 4.1 the derived address is a
deterministic function of (mnemonic, passphrase, path template, derivation
index), distinct indices yielding distinct addresses, so an address is
modelled by its derivation coordinates. -/
structure DerivedAddress where
  mnemonic : String
  passphrase : String
  pathTemplate : String
  index : Nat
deriving DecidableEq

/-- Account-resolution errors (`HardhatError.ERRORS.NETWORK.INVALID_HD_PATH`
in the test). -/
inductive NetworkError where
  | invalidHdPath (path : String)
deriving DecidableEq

/-- Modelled from the spec: derivation of the account at offset `i`, whose
final path segment is the zero-based index `initialIndex + i` (spec section
4.1). -/
def deriveAddress (cfg : HDWalletConfig) (i : Nat) : DerivedAddress :=
  ⟨cfg.mnemonic, cfg.passphrase, cfg.path, cfg.initialIndex + i⟩

/-- Modelled from the spec: HD account resolution — validate the path, then
derive `count` accounts at indices `initialIndex .. initialIndex + count - 1`;
a malformed path yields `InvalidDerivationPath` and no partial results. -/
def resolveHDAccounts (cfg : HDWalletConfig) : Except NetworkError (List DerivedAddress) :=
  if validHdPath cfg.path then
    Except.ok ((List.range cfg.count).map (deriveAddress cfg))
  else
    Except.error (NetworkError.invalidHdPath cfg.path)

/-- A live network connection carrying its accounts configuration. -/
structure NetworkConnection where
  accountsConfig : HDWalletConfig
deriving DecidableEq

/-- Modelled from the spec and the e2e test (src/unnamed/part_004):
`hre.network.connect` builds the connection without running the account
request handlers — the test's `connect` resolves successfully even when the
configured HD path is "m/". -/
def NetworkManager.connect (cfg : HDWalletConfig) : Except NetworkError NetworkConnection :=
  Except.ok ⟨cfg⟩

/-- Modelled from the spec and the e2e test: the first `eth_accounts` request
through the connection runs the account handlers in the onRequest hook, which
is where HD resolution (and its path validation) happens. -/
def requestAccounts (conn : NetworkConnection) : Except NetworkError (List DerivedAddress) :=
  resolveHDAccounts conn.accountsConfig

/-- The HD-wallet configuration of the e2e test (src/unnamed/part_004). -/
def hdTestConfig : HDWalletConfig :=
  { mnemonic := "couch hunt wisdom giant regret supreme issue sing enroll ankle type husband"
    path := "m/44\x27/60\x27/0\x27/0/"
    initialIndex := 0
    count := 2
    passphrase := "" }

/-- The invalid-path configuration of the e2e test: path "m/". -/
def badHdConfig : HDWalletConfig :=
  { hdTestConfig with path := "m/" }

/-- Claim C2: an HD-wallet configuration with `count = n` and a valid path
resolves to exactly `n` distinct addresses, ordered by derivation index
`initialIndex .. initialIndex + n - 1`, and the list is a deterministic
function of (mnemonic, path, initialIndex, count, passphrase). -/
theorem hd_wallet_accounts_spec (cfg : HDWalletConfig) (h : validHdPath cfg.path = true) :
    ∃ accounts : List DerivedAddress,
      resolveHDAccounts cfg = Except.ok accounts ∧
      accounts.length = cfg.count ∧
      accounts.Nodup ∧
      (∀ i (hi : i < accounts.length),
        accounts.get ⟨i, hi⟩ = deriveAddress cfg i ∧
        (accounts.get ⟨i, hi⟩).index = cfg.initialIndex + i) ∧
      (∀ cfg2 : HDWalletConfig, cfg2.mnemonic = cfg.mnemonic → cfg2.path = cfg.path →
        cfg2.initialIndex = cfg.initialIndex → cfg2.count = cfg.count →
        cfg2.passphrase = cfg.passphrase →
        resolveHDAccounts cfg2 = resolveHDAccounts cfg) := by
  refine ⟨(List.range cfg.count).map (deriveAddress cfg), ?_, ?_, ?_, ?_, ?_⟩
  · simp [resolveHDAccounts, h]
  · simp
  · refine List.Nodup.map ?_ (List.nodup_range cfg.count)
    intro a b hab
    have hidx : cfg.initialIndex + a = cfg.initialIndex + b :=
      congrArg DerivedAddress.index hab
    exact Nat.add_left_cancel hidx
  · intro i hi
    constructor
    · simp [List.get_eq_getElem, List.getElem_map]
    · simp [List.get_eq_getElem, List.getElem_map, deriveAddress]
  · intro cfg2 h1 h2 h3 h4 h5
    cases cfg
    cases cfg2
    simp only at h1 h2 h3 h4 h5
    subst h1
    subst h2
    subst h3
    subst h4
    subst h5
    rfl

/-- Witness for C2 at the e2e test configuration (2 accounts, path
m/44'/60'/0'/0/). -/
theorem hd_wallet_accounts_spec_witness :
    validHdPath hdTestConfig.path = true ∧
    ∃ accounts : List DerivedAddress,
      resolveHDAccounts hdTestConfig = Except.ok accounts ∧
      accounts.length = hdTestConfig.count ∧
      accounts.Nodup := by
  obtain ⟨accounts, ha, hlen, hnodup, _, _⟩ :=
    hd_wallet_accounts_spec hdTestConfig (by decide)
  exact ⟨by decide, accounts, ha, hlen, hnodup⟩

/-- Counterexample for C3 as stated: with the e2e test's invalid path "m/",
connecting succeeds — the invalid path is not detected fail-fast at connection
setup; it surfaces as `InvalidDerivationPath` on the first request through the
connection. -/
theorem hd_invalid_path_counterexample :
    validHdPath badHdConfig.path = false ∧
    NetworkManager.connect badHdConfig = Except.ok ⟨badHdConfig⟩ ∧
    requestAccounts ⟨badHdConfig⟩ = Except.error (NetworkError.invalidHdPath "m/") := by
  have h : validHdPath "m/" = false := by decide
  refine ⟨h, rfl, ?_⟩
  simp [requestAccounts, resolveHDAccounts, badHdConfig, hdTestConfig, h]

/-- Claim C3 (amended): an HD-wallet configuration with a malformed derivation
path fails with the `InvalidDerivationPath` error before any address is
derived (no partial results); the failure is raised when the request-handler
chain first resolves accounts, i.e. on the first request through the
connection, not at connection setup. -/
theorem hd_invalid_path_amended (cfg : HDWalletConfig) (h : validHdPath cfg.path = false) :
    NetworkManager.connect cfg = Except.ok ⟨cfg⟩ ∧
    requestAccounts ⟨cfg⟩ = Except.error (NetworkError.invalidHdPath cfg.path) ∧
    ∀ accounts : List DerivedAddress, resolveHDAccounts cfg ≠ Except.ok accounts := by
  refine ⟨rfl, ?_, ?_⟩
  · simp [requestAccounts, resolveHDAccounts, h]
  · intro accounts
    simp [resolveHDAccounts, h]

/-- Witness for the amended C3 at the e2e test's "m/" configuration. -/
theorem hd_invalid_path_amended_witness :
    NetworkManager.connect badHdConfig = Except.ok ⟨badHdConfig⟩ ∧
    requestAccounts ⟨badHdConfig⟩ =
      Except.error (NetworkError.invalidHdPath badHdConfig.path) ∧
    ∀ accounts : List DerivedAddress, resolveHDAccounts badHdConfig ≠ Except.ok accounts :=
  hd_invalid_path_amended badHdConfig (by decide)

/- ------------------------------------------------------------------ -/
/- Section 7: JSON-RPC envelope codec and hex normalization (claim C6). -/
/- ------------------------------------------------------------------ -/

/-- Lowercase hexadecimal digit character for a value below 16. -/
def hexDigitChar (n : Nat) : Char :=
  if n < 10 then Char.ofNat (48 + n) else Char.ofNat (87 + n)

/-- Value of a lowercase hexadecimal digit character, `none` otherwise. -/
def hexDigitVal (c : Char) : Option Nat :=
  if 48 ≤ c.toNat ∧ c.toNat ≤ 57 then some (c.toNat - 48)
  else if 97 ≤ c.toNat ∧ c.toNat ≤ 102 then some (c.toNat - 87)
  else none

/-- Decide whether a character is a lowercase hexadecimal digit. -/
def isLowerHexDigitChar (c : Char) : Bool :=
  (hexDigitVal c).isSome

/-- Hexadecimal digits of `n`, least significant first; empty for zero. -/
def natToHexRev (n : Nat) : List Char :=
  if h : n = 0 then [] else hexDigitChar (n % 16) :: natToHexRev (n / 16)
decreasing_by exact Nat.div_lt_self (Nat.pos_of_ne_zero h) (by decide)

/-- Parse hexadecimal digit characters into the accumulator `acc`. -/
def parseHexDigits : List Char → Nat → Option Nat
  | [], acc => some acc
  | c :: cs, acc =>
    match hexDigitVal c with
    | some d => parseHexDigits cs (16 * acc + d)
    | none => none

/-- Modelled from the spec: canonical encoding of a hex quantity (spec section
3) — lowercase 0x-prefixed, no leading zero, the literal zero encoded "0x0".
The codec implementation is not in the source tree. -/
def encodeQuantityChars (n : Nat) : List Char :=
  Char.ofNat 48 :: Char.ofNat 120 :: (if n = 0 then [Char.ofNat 48] else (natToHexRev n).reverse)

/-- String form of the canonical quantity encoding. -/
def encodeQuantity (n : Nat) : String :=
  String.mk (encodeQuantityChars n)

/-- Modelled from the spec: decoding of a hex quantity — a 0x prefix followed
by at least one hexadecimal digit. -/
def decodeQuantityChars : List Char → Option Nat
  | c0 :: c1 :: rest =>
    if c0 = Char.ofNat 48 ∧ c1 = Char.ofNat 120 ∧ rest ≠ [] then parseHexDigits rest 0
    else none
  | _ => none

/-- String form of quantity decoding. -/
def decodeQuantity (s : String) : Option Nat :=
  decodeQuantityChars s.data

/-- Decide whether a character list is a canonically encoded quantity:
"0x", then lowercase hex digits, no leading zero except the literal "0x0". -/
def canonicalQuantityChars : List Char → Bool
  | c0 :: c1 :: c :: cs =>
    c0 == Char.ofNat 48 && c1 == Char.ofNat 120 &&
      isLowerHexDigitChar c && cs.all isLowerHexDigitChar &&
      (c != Char.ofNat 48 || cs.isEmpty)
  | _ => false

/-- String form of the canonical-quantity predicate. -/
def canonicalQuantityString (s : String) : Bool :=
  canonicalQuantityChars s.data

/-- Two lowercase hexadecimal digit characters per byte, in order. -/
def bytesToHexChars : List Nat → List Char
  | [] => []
  | b :: bs => hexDigitChar (b / 16) :: hexDigitChar (b % 16) :: bytesToHexChars bs

/-- Modelled from the spec: canonical encoding of hex data (spec section 3) —
lowercase 0x-prefixed with an even digit count (two digits per byte). -/
def encodeData (bs : List Nat) : String :=
  String.mk (Char.ofNat 48 :: Char.ofNat 120 :: bytesToHexChars bs)

/-- Parse pairs of hexadecimal digit characters into bytes; an odd digit
count fails. -/
def parseHexBytes : List Char → Option (List Nat)
  | [] => some []
  | c1 :: c2 :: cs =>
    match hexDigitVal c1, hexDigitVal c2, parseHexBytes cs with
    | some d1, some d2, some bs => some ((16 * d1 + d2) :: bs)
    | _, _, _ => none
  | _ :: [] => none

/-- Modelled from the spec: decoding of hex data — a 0x prefix followed by an
even number of hexadecimal digits. -/
def decodeDataChars : List Char → Option (List Nat)
  | c0 :: c1 :: rest =>
    if c0 = Char.ofNat 48 ∧ c1 = Char.ofNat 120 then parseHexBytes rest else none
  | _ => none

/-- String form of data decoding. -/
def decodeData (s : String) : Option (List Nat) :=
  decodeDataChars s.data

/-- JSON values carried in the `result` position of a response. -/
inductive Json where
  | null
  | bool (b : Bool)
  | num (n : Int)
  | str (s : String)
  | arr (items : List Json)
  | obj (fields : List (String × Json))

/-- The error member of a failed JSON-RPC response: code, message, optional
data (spec section 3). -/
structure JsonRpcErrorObj where
  code : Int
  message : String
  data : Option Json

/-- Exactly one of `result` / `error` is present in a response. -/
inductive JsonRpcOutcome where
  | success (result : Json)
  | failure (err : JsonRpcErrorObj)

/-- Modelled from the spec: a JSON-RPC response envelope (spec section 3) —
the codec implementation is not in the source tree. -/
structure JsonRpcResponse where
  id : Int
  outcome : JsonRpcOutcome

/-- Encode the error member into its JSON object form; the data field is
omitted when absent. -/
def encodeErrorObj (e : JsonRpcErrorObj) : Json :=
  match e.data with
  | none => Json.obj [("code", Json.num e.code), ("message", Json.str e.message)]
  | some d => Json.obj [("code", Json.num e.code), ("message", Json.str e.message), ("data", d)]

/-- Decode the error member from its JSON object form. -/
def decodeErrorObj : Json → Option JsonRpcErrorObj
  | Json.obj [("code", Json.num c), ("message", Json.str m)] => some ⟨c, m, none⟩
  | Json.obj [("code", Json.num c), ("message", Json.str m), ("data", d)] => some ⟨c, m, some d⟩
  | _ => none

/-- Modelled from the spec: serialize a response envelope to its wire JSON
object (the transport performs the final text rendering). -/
def encodeJsonRpcResponse (r : JsonRpcResponse) : Json :=
  match r.outcome with
  | JsonRpcOutcome.success res =>
    Json.obj [("jsonrpc", Json.str "2.0"), ("id", Json.num r.id), ("result", res)]
  | JsonRpcOutcome.failure e =>
    Json.obj [("jsonrpc", Json.str "2.0"), ("id", Json.num r.id), ("error", encodeErrorObj e)]

/-- Modelled from the spec: parse a response envelope from its wire JSON
object. -/
def decodeJsonRpcResponse : Json → Option JsonRpcResponse
  | Json.obj [("jsonrpc", Json.str "2.0"), ("id", Json.num i), ("result", res)] =>
    some ⟨i, JsonRpcOutcome.success res⟩
  | Json.obj [("jsonrpc", Json.str "2.0"), ("id", Json.num i), ("error", e)] =>
    (decodeErrorObj e).map (fun eo => ⟨i, JsonRpcOutcome.failure eo⟩)
  | _ => none

/-- Unfolding of `natToHexRev` at zero. -/
theorem natToHexRev_zero : natToHexRev 0 = [] := by
  rw [natToHexRev]
  simp

/-- Unfolding of `natToHexRev` at a nonzero argument. -/
theorem natToHexRev_pos (n : Nat) (h : n ≠ 0) :
    natToHexRev n = hexDigitChar (n % 16) :: natToHexRev (n / 16) := by
  rw [natToHexRev]
  simp [h]

/-- Decoding inverts encoding on single hexadecimal digits. -/
theorem hexDigitVal_hexDigitChar : ∀ d, d < 16 → hexDigitVal (hexDigitChar d) = some d := by
  decide

/-- Hex digit characters are lowercase hex digits. -/
theorem isLowerHexDigitChar_hexDigitChar : ∀ d, d < 16 →
    isLowerHexDigitChar (hexDigitChar d) = true := by
  decide

/-- Nonzero hex digits do not encode to the zero character. -/
theorem hexDigitChar_ne_zeroChar : ∀ d, d < 16 → d ≠ 0 →
    hexDigitChar d ≠ Char.ofNat 48 := by
  decide

/-- Parsing distributes over list append. -/
theorem parseHexDigits_append (xs ys : List Char) :
    ∀ a, parseHexDigits (xs ++ ys) a =
      Option.bind (parseHexDigits xs a) (fun b => parseHexDigits ys b) := by
  induction xs with
  | nil => intro a; simp [parseHexDigits]
  | cons c cs ih =>
    intro a
    simp only [List.cons_append, parseHexDigits]
    cases h : hexDigitVal c with
    | none => simp
    | some d => simp [ih]

/-- Parsing the reversed digit expansion of `n` on accumulator `a` yields
`a` shifted past those digits plus `n`. -/
theorem parseHexDigits_natToHexRev (n : Nat) :
    ∀ a, parseHexDigits (natToHexRev n).reverse a =
      some (a * 16 ^ (natToHexRev n).length + n) := by
  induction n using Nat.strong_induction_on with
  | _ n ih =>
    intro a
    by_cases h : n = 0
    · subst h
      simp [natToHexRev_zero, parseHexDigits]
    · rw [natToHexRev_pos n h, List.reverse_cons, parseHexDigits_append]
      rw [ih (n / 16) (Nat.div_lt_self (Nat.pos_of_ne_zero h) (by decide))]
      have hv : hexDigitVal (hexDigitChar (n % 16)) = some (n % 16) :=
        hexDigitVal_hexDigitChar (n % 16) (Nat.mod_lt n (by decide))
      simp only [Option.some_bind, parseHexDigits, hv, List.length_cons]
      have harith : 16 * (a * 16 ^ (natToHexRev (n / 16)).length + n / 16) + n % 16 =
          a * 16 ^ ((natToHexRev (n / 16)).length + 1) + n := by
        have hdm : 16 * (n / 16) + n % 16 = n := Nat.div_add_mod n 16
        have hpow : (16 : Nat) ^ ((natToHexRev (n / 16)).length + 1) =
            16 ^ (natToHexRev (n / 16)).length * 16 := pow_succ 16 _
        calc 16 * (a * 16 ^ (natToHexRev (n / 16)).length + n / 16) + n % 16
            = a * (16 ^ (natToHexRev (n / 16)).length * 16) +
              (16 * (n / 16) + n % 16) := by ring
          _ = a * 16 ^ ((natToHexRev (n / 16)).length + 1) + n := by rw [hdm, hpow]
      rw [harith]

/-- The digit expansion of a nonzero number is nonempty. -/
theorem natToHexRev_ne_nil (n : Nat) (h : n ≠ 0) : natToHexRev n ≠ [] := by
  rw [natToHexRev_pos n h]
  simp

/-- Every character of the digit expansion is a lowercase hex digit. -/
theorem natToHexRev_all_hex (n : Nat) :
    ∀ c ∈ natToHexRev n, isLowerHexDigitChar c = true := by
  induction n using Nat.strong_induction_on with
  | _ n ih =>
    intro c hc
    by_cases h : n = 0
    · subst h
      rw [natToHexRev_zero] at hc
      simp at hc
    · rw [natToHexRev_pos n h] at hc
      rcases List.mem_cons.mp hc with rfl | hc2
      · exact isLowerHexDigitChar_hexDigitChar (n % 16) (Nat.mod_lt n (by decide))
      · exact ih (n / 16) (Nat.div_lt_self (Nat.pos_of_ne_zero h) (by decide)) c hc2

/-- The leading (most significant) digit of a nonzero number is nonzero. -/
theorem natToHexRev_reverse_head (n : Nat) :
    n ≠ 0 → ∃ d, d < 16 ∧ d ≠ 0 ∧
      ((natToHexRev n).reverse).head? = some (hexDigitChar d) := by
  induction n using Nat.strong_induction_on with
  | _ n ih =>
    intro h
    rw [natToHexRev_pos n h, List.reverse_cons]
    by_cases h16 : n / 16 = 0
    · rw [h16, natToHexRev_zero]
      refine ⟨n % 16, Nat.mod_lt n (by decide), ?_, rfl⟩
      have hlt : n < 16 := (Nat.div_eq_zero_iff (by decide)).mp h16
      rw [Nat.mod_eq_of_lt hlt]
      exact h
    · obtain ⟨d, hd1, hd2, hd3⟩ :=
        ih (n / 16) (Nat.div_lt_self (Nat.pos_of_ne_zero h) (by decide)) h16
      refine ⟨d, hd1, hd2, ?_⟩
      cases hxs : (natToHexRev (n / 16)).reverse with
      | nil =>
        rw [hxs] at hd3
        simp at hd3
      | cons hd tl =>
        rw [hxs] at hd3
        simp at hd3
        simp [hd3]

/-- Decoding inverts the canonical quantity encoding. -/
theorem decodeQuantity_encodeQuantity (n : Nat) :
    decodeQuantity (encodeQuantity n) = some n := by
  by_cases h : n = 0
  · subst h
    decide
  · have hne : (natToHexRev n).reverse ≠ [] := by
      intro hcon
      exact natToHexRev_ne_nil n h (List.reverse_eq_nil_iff.mp hcon)
    simp [decodeQuantity, encodeQuantity, encodeQuantityChars, h, decodeQuantityChars,
      hne, parseHexDigits_natToHexRev n 0]

/-- The canonical quantity encoding satisfies the canonical-format predicate:
lowercase hex digits, no leading zero except the literal "0x0". -/
theorem canonicalQuantity_encodeQuantity (n : Nat) :
    canonicalQuantityString (encodeQuantity n) = true := by
  by_cases h : n = 0
  · subst h
    decide
  · obtain ⟨d, hd16, hd0, hhd⟩ := natToHexRev_reverse_head n h
    cases hrev : (natToHexRev n).reverse with
    | nil =>
      rw [hrev] at hhd
      simp at hhd
    | cons c cs =>
      rw [hrev] at hhd
      simp at hhd
      simp only [canonicalQuantityString, encodeQuantity, encodeQuantityChars, if_neg h, hrev,
        canonicalQuantityChars]
      have hchex : isLowerHexDigitChar c = true := by
        have hc : c ∈ natToHexRev n := by
          have : c ∈ (natToHexRev n).reverse := by
            rw [hrev]
            exact List.mem_cons_self c cs
          exact List.mem_reverse.mp this
        exact natToHexRev_all_hex n c hc
      have hcsall : cs.all isLowerHexDigitChar = true := by
        rw [List.all_eq_true]
        intro x hx
        have hxrev : x ∈ (natToHexRev n).reverse := by
          rw [hrev]
          exact List.mem_cons_of_mem c hx
        exact natToHexRev_all_hex n x (List.mem_reverse.mp hxrev)
      have hc0 : (c != Char.ofNat 48) = true := by
        rw [hhd]
        have := hexDigitChar_ne_zeroChar d hd16 hd0
        simpa using this
      simp [hchex, hcsall, hc0]

/-- Parsing inverts the byte-pair encoding on byte lists. -/
theorem parseHexBytes_bytesToHexChars (bs : List Nat) (hb : ∀ b ∈ bs, b < 256) :
    parseHexBytes (bytesToHexChars bs) = some bs := by
  induction bs with
  | nil => rfl
  | cons b bs ih =>
    have hb0 : b < 256 := hb b (List.mem_cons_self b bs)
    have hdiv : b / 16 < 16 := by omega
    have hmod : b % 16 < 16 := by omega
    have hrest : parseHexBytes (bytesToHexChars bs) = some bs :=
      ih (fun x hx => hb x (List.mem_cons_of_mem b hx))
    have hdm : 16 * (b / 16) + b % 16 = b := Nat.div_add_mod b 16
    simp only [bytesToHexChars, parseHexBytes, hexDigitVal_hexDigitChar (b / 16) hdiv,
      hexDigitVal_hexDigitChar (b % 16) hmod, hrest, hdm]

/-- Every byte contributes exactly two hex digit characters. -/
theorem bytesToHexChars_length (bs : List Nat) :
    (bytesToHexChars bs).length = 2 * bs.length := by
  induction bs with
  | nil => rfl
  | cons b bs ih =>
    simp [bytesToHexChars, ih]
    ring

/-- Decoding inverts the canonical data encoding. -/
theorem decodeData_encodeData (bs : List Nat) (hb : ∀ b ∈ bs, b < 256) :
    decodeData (encodeData bs) = some bs := by
  have hstep : decodeData (encodeData bs) = parseHexBytes (bytesToHexChars bs) := by
    simp [decodeData, encodeData, decodeDataChars]
  rw [hstep, parseHexBytes_bytesToHexChars bs hb]

/-- Decoding inverts encoding on the error member. -/
theorem decodeErrorObj_encodeErrorObj (e : JsonRpcErrorObj) :
    decodeErrorObj (encodeErrorObj e) = some e := by
  obtain ⟨c, m, d⟩ := e
  cases d with
  | none => rfl
  | some x => rfl

/-- Decoding inverts encoding on whole response envelopes. -/
theorem decodeJsonRpcResponse_encode (r : JsonRpcResponse) :
    decodeJsonRpcResponse (encodeJsonRpcResponse r) = some r := by
  obtain ⟨i, outcome⟩ := r
  cases outcome with
  | success res => rfl
  | failure e =>
    simp only [encodeJsonRpcResponse, decodeJsonRpcResponse,
      decodeErrorObj_encodeErrorObj e]
    rfl

/-- Claim C6: encoding a valid `JsonRpcResponse` and decoding the result
reproduces the original value; hex normalization is canonical on output —
quantities are lowercase 0x-prefixed with no leading zero except the literal
"0x0", data values have an even digit count — and both hex codecs
round-trip. -/
theorem json_rpc_codec_round_trip :
    (∀ r : JsonRpcResponse, decodeJsonRpcResponse (encodeJsonRpcResponse r) = some r) ∧
    (∀ n : Nat, decodeQuantity (encodeQuantity n) = some n ∧
        canonicalQuantityString (encodeQuantity n) = true) ∧
    (∀ bs : List Nat, (∀ b ∈ bs, b < 256) →
        decodeData (encodeData bs) = some bs ∧
        (bytesToHexChars bs).length = 2 * bs.length) :=
  ⟨decodeJsonRpcResponse_encode,
   fun n => ⟨decodeQuantity_encodeQuantity n, canonicalQuantity_encodeQuantity n⟩,
   fun bs hb => ⟨decodeData_encodeData bs hb, bytesToHexChars_length bs⟩⟩

/-- Witness for C6 at concrete values: a success envelope, the quantity 255
("0xff"), and the data bytes [0, 171] ("0x00ab"). -/
theorem json_rpc_codec_round_trip_witness :
    decodeJsonRpcResponse
        (encodeJsonRpcResponse ⟨1, JsonRpcOutcome.success (Json.str "0x1")⟩) =
      some ⟨1, JsonRpcOutcome.success (Json.str "0x1")⟩ ∧
    decodeQuantity (encodeQuantity 255) = some 255 ∧
    canonicalQuantityString (encodeQuantity 255) = true ∧
    decodeData (encodeData [0, 171]) = some [0, 171] ∧
    (bytesToHexChars [0, 171]).length = 2 * 2 :=
  ⟨json_rpc_codec_round_trip.1 ⟨1, JsonRpcOutcome.success (Json.str "0x1")⟩,
   (json_rpc_codec_round_trip.2.1 255).1,
   (json_rpc_codec_round_trip.2.1 255).2,
   (json_rpc_codec_round_trip.2.2 [0, 171] (by decide)).1,
   (json_rpc_codec_round_trip.2.2 [0, 171] (by decide)).2⟩
